import Mathlib

/-!
Verification of the cnpz archive writer (src/cnpz.cpp, cnpz.h).

The program incrementally serializes a ZIP-subset archive, optionally embedding
NumPy ".npy" payloads.  We embed the byte-producing core shallowly:

* bytes are `Nat` values (each < 256 by construction of the serializers);
* the output file stream (`std::ofstream fs_`) is a `List Nat` plus an
  open/closed flag — writes on a closed `ofstream` fail silently (badbit,
  no exception, nothing reaches the disk), which the flag models;
* the central-directory accumulator (`std::ostringstream central_dir_`) is a
  plain `List Nat`;
* C unsigned fixed-width arithmetic is `Nat` with explicit `% 2^16` / `% 2^32`
  at the points where the source narrows to `uint16_t` / `uint32_t`;
* `gmtime` (libc) is embedded as the standard civil-from-days algorithm on
  seconds since the Unix epoch (non-negative timestamps);
* the zlib deflate encoder is embedded as a session state machine following
  zlib's documented contract for calls whose output buffer is large enough
  (the source sizes the buffer with `compressBound`): every call consumes all
  of its input, `Z_FINISH` flushes everything and reaches `Z_STREAM_END`.
-/

/-- Little-endian serialization of a 16-bit field (`write2` in the source /
a packed `uint16_t` struct member).  High bits beyond 2^16 are dropped,
matching the `uint16_t` narrowing. -/
def le16 (v : Nat) : List Nat := [v % 256, v / 256 % 256]

/-- Little-endian serialization of a 32-bit field (`write4` in the source /
a packed `uint32_t` struct member). -/
def le32 (v : Nat) : List Nat :=
  [v % 256, v / 256 % 256, v / 65536 % 256, v / 16777216 % 256]

/-- Bytes of an ASCII string literal (`std::string` contents). -/
def strBytes (s : String) : List Nat := s.data.map Char.toNat

/-- ASCII decimal digits of a natural number, as produced by
`std::to_string` for non-negative values. -/
def natDigits (n : Nat) : List Nat :=
  (Nat.toDigits 10 n).map Char.toNat

/-- `ZIP_LOCAL_FILE_HEADER_SIG` (cnpz.cpp line 17). -/
def ZIP_LOCAL_FILE_HEADER_SIG : Nat := 0x04034b50

/-- `ZIP_CENTRAL_DIRECTORY_FILE_HEADER_SIG` (cnpz.cpp line 18). -/
def ZIP_CENTRAL_DIRECTORY_FILE_HEADER_SIG : Nat := 0x02014b50

/-- `VERSION_MADE_BY` (cnpz.cpp line 19). -/
def VERSION_MADE_BY : Nat := 20

/-- `enum class CompressionMethod : uint16_t` (cnpz.h). -/
inductive CompressionMethod where
  | STORED
  | DEFLATE
deriving DecidableEq, Repr

/-- Numeric value of the enum: STORED = 0, DEFLATE = 8. -/
def CompressionMethod.code : CompressionMethod → Nat
  | .STORED => 0
  | .DEFLATE => 8

/-- Packed `ZipLocalFileHeader` (cnpz.cpp lines 27-38); the leading
signature is written separately, as in the source. -/
structure ZipLocalFileHeader where
  version_needed_to_extract : Nat := 20
  general_purpose_bit_flag : Nat := 0
  compression_method : Nat := 0
  last_mod_file_time : Nat := 0
  last_mod_file_date : Nat := 0
  crc32 : Nat := 0
  compressed_size : Nat := 0
  uncompressed_size : Nat := 0
  filename_length : Nat := 0
  extra_field_length : Nat := 0
deriving Repr, DecidableEq

/-- Byte image of a packed `ZipLocalFileHeader` (26 bytes, no padding,
little-endian fields in declaration order). -/
def serializeLocalHeader (h : ZipLocalFileHeader) : List Nat :=
  le16 h.version_needed_to_extract ++ le16 h.general_purpose_bit_flag ++
  le16 h.compression_method ++ le16 h.last_mod_file_time ++
  le16 h.last_mod_file_date ++ le32 h.crc32 ++ le32 h.compressed_size ++
  le32 h.uncompressed_size ++ le16 h.filename_length ++ le16 h.extra_field_length

/-- Packed `ZipCentralDirectoryFileHeaderSuffix` (cnpz.cpp lines 48-54). -/
structure ZipCentralDirectoryFileHeaderSuffix where
  file_comment_length : Nat := 0
  disk_number_start : Nat := 0
  internal_file_attr : Nat := 0
  external_file_attr : Nat := 0
  relative_offset_of_local_header : Nat := 0
deriving Repr, DecidableEq

/-- Byte image of a packed `ZipCentralDirectoryFileHeaderSuffix` (14 bytes). -/
def serializeCdSuffix (s : ZipCentralDirectoryFileHeaderSuffix) : List Nat :=
  le16 s.file_comment_length ++ le16 s.disk_number_start ++
  le16 s.internal_file_attr ++ le32 s.external_file_attr ++
  le32 s.relative_offset_of_local_header

/-- Packed `ZipEndOfCentralDirectoryRecord` (cnpz.cpp lines 57-66). -/
structure ZipEndOfCentralDirectoryRecord where
  signature : Nat := 0x06054b50
  disk_number : Nat := 0
  central_directory_disk_number : Nat := 0
  num_entries_on_disk : Nat := 0
  num_entries_total : Nat := 0
  central_directory_size : Nat := 0
  central_directory_offset : Nat := 0
  comment_size : Nat := 0
deriving Repr, DecidableEq

/-- Byte image of a packed `ZipEndOfCentralDirectoryRecord` (22 bytes). -/
def serializeEocd (e : ZipEndOfCentralDirectoryRecord) : List Nat :=
  le32 e.signature ++ le16 e.disk_number ++ le16 e.central_directory_disk_number ++
  le16 e.num_entries_on_disk ++ le16 e.num_entries_total ++
  le32 e.central_directory_size ++ le32 e.central_directory_offset ++
  le16 e.comment_size

/-- The fields of `struct tm` that the source reads (cnpz.cpp lines 183-185).
`tm_year` is years since 1900, `tm_mon` is 0-based. -/
structure Tm where
  tm_sec : Nat
  tm_min : Nat
  tm_hour : Nat
  tm_mday : Nat
  tm_mon : Nat
  tm_year : Nat
deriving Repr, DecidableEq

/-- Proleptic-Gregorian date of a day count since 1970-01-01, the standard
civil-from-days algorithm used by libc `gmtime` implementations; returns
(year, month(1-12), day(1-31)). -/
def civilFromDays (z : Nat) : Nat × Nat × Nat :=
  let zd := z + 719468
  let era := zd / 146097
  let doe := zd % 146097
  let yoe := (doe - doe / 1460 + doe / 36524 - doe / 146096) / 365
  let y := yoe + era * 400
  let doy := doe - (365 * yoe + yoe / 4 - yoe / 100)
  let mp := (5 * doy + 2) / 153
  let d := doy - (153 * mp + 2) / 5 + 1
  let m := if mp < 10 then mp + 3 else mp - 9
  (if m ≤ 2 then y + 1 else y, m, d)

/-- Model of libc `gmtime` on a non-negative `time_t`: UTC calendar
decomposition of seconds since the Unix epoch. -/
def gmtimeModel (t : Nat) : Tm :=
  let secs := t % 86400
  let days := t / 86400
  let ymd := civilFromDays days
  { tm_sec := secs % 60
    tm_min := secs / 60 % 60
    tm_hour := secs / 3600
    tm_mday := ymd.2.2
    tm_mon := ymd.2.1 - 1
    tm_year := ymd.1 - 1900 }

/-- MS-DOS time word as computed on cnpz.cpp line 184:
`(tm_hour << 11) + (tm_min << 5) + (tm_sec / 2)`. -/
def dosTime (tm : Tm) : Nat :=
  tm.tm_hour * 2048 + tm.tm_min * 32 + tm.tm_sec / 2

/-- MS-DOS date word as computed on cnpz.cpp line 185:
`((tm_year - 80) << 9) + ((tm_mon + 1) << 5) + tm_mday`, evaluated in
(C++20 two's-complement) signed `int` arithmetic and then narrowed to the
`uint16_t` struct field, i.e. reduced modulo 2^16. -/
def dosDate (tm : Tm) : Nat :=
  ((((tm.tm_year : Int) - 80) * 512 + ((tm.tm_mon : Int) + 1) * 32 +
    (tm.tm_mday : Int)) % 65536).toNat

/-- The timestamp the entry is stamped with (cnpz.cpp lines 180-182):
`if (timestamp == 0) timestamp = std::time(nullptr);` — the ambient
wall-clock value is passed in as `now`. -/
def effectiveTimestamp (timestamp now : Nat) : Nat :=
  if timestamp = 0 then now else timestamp

/-- zlib return codes used by the source. -/
def Z_OK : Int := 0

/-- zlib `Z_STREAM_END` return code. -/
def Z_STREAM_END : Int := 1

/-- zlib `Z_BUF_ERROR` return code. -/
def Z_BUF_ERROR : Int := -5

/-- The parts of a zlib `z_stream` deflate session the source observes:
running counters `total_in` / `total_out`, the bytes produced so far, the
input accepted but not yet flushed, and whether `Z_FINISH` has completed. -/
structure ZStream where
  total_in : Nat
  total_out : Nat
  buffered : List Nat
  output : List Nat
  ended : Bool
deriving Repr, DecidableEq

/-- Fresh deflate session (`deflateInit2` with raw -15 window). -/
def zInit : ZStream :=
  { total_in := 0, total_out := 0, buffered := [], output := [], ended := false }

/-- One `deflate` call per zlib's documented contract when the output buffer
is large enough for everything (the source allocates `compressBound(total)`
bytes up front): all of `avail_in` is consumed; with `Z_FINISH` the stream is
flushed and the call returns `Z_STREAM_END`, otherwise it returns `Z_OK`.
The encoder is modelled as content-preserving (output = input bytes); the
source only relies on counters, return codes and output length. -/
def deflateStep (s : ZStream) (input : List Nat) (finish : Bool) :
    ZStream × Int :=
  let s := { s with total_in := s.total_in + input.length,
                    buffered := s.buffered ++ input }
  if finish then
    ({ s with output := s.output ++ s.buffered,
              total_out := s.total_out + s.buffered.length,
              buffered := [], ended := true }, Z_STREAM_END)
  else (s, Z_OK)

/-- `compress_chunk` (cnpz.cpp lines 150-164): points the stream at one
source span and calls `deflate` with `Z_FINISH` or `Z_NO_FLUSH`. -/
def compress_chunk (s : ZStream) (source : List Nat) (finish : Bool) :
    ZStream × Int :=
  deflateStep s source finish

/-- The deflate branch of `add_file_from_buffers` (cnpz.cpp lines 199-227):
feed `buf0` with `finish = !buf1`, then `buf1` (if present) with
`finish = true`.  Also returns the log of (return code, finish flag) pairs
of the `compress_chunk` calls, in order. -/
def deflatePayload (buf0 : List Nat) (buf1 : Option (List Nat)) :
    ZStream × List (Int × Bool) :=
  match buf1 with
  | none =>
      let r := compress_chunk zInit buf0 true
      (r.1, [(r.2, true)])
  | some b1 =>
      let r0 := compress_chunk zInit buf0 false
      let r1 := compress_chunk r0.1 b1 true
      (r1.1, [(r0.2, false), (r1.2, true)])

/-- The state of an `NpzFile` (cnpz.h lines 56-59): the output stream
`fs_` (bytes on disk plus the open flag), the `central_dir_` accumulator,
and the `uint16_t num_entries_` counter. -/
structure NpzState where
  sink : List Nat
  sinkOpen : Bool
  centralDir : List Nat
  numEntries : Nat
deriving Repr, DecidableEq

/-- A freshly opened archive (the `NpzFile` constructor, after the sink
opened successfully). -/
def npzInit : NpzState :=
  { sink := [], sinkOpen := true, centralDir := [], numEntries := 0 }

/-- The uncompressed total `uint32_t total_size = size0 + (buf1 ? size1 : 0)`
(cnpz.cpp line 194).  `buf1 = none` models a null second buffer. -/
def totalSize (buf0 : List Nat) (buf1 : Option (List Nat)) : Nat :=
  (buf0.length + (match buf1 with
    | some b => b.length
    | none => 0)) % 4294967296

/-- The payload bytes written after the name (cnpz.cpp lines 237-242):
the compressed bytes for DEFLATE, the concatenated buffers for STORED. -/
def entryPayload (buf0 : List Nat) (buf1 : Option (List Nat))
    (compression : CompressionMethod) : List Nat :=
  match compression with
  | .DEFLATE => (deflatePayload buf0 buf1).1.output
  | .STORED => buf0 ++ (match buf1 with | some b => b | none => [])

/-- The `ZipLocalFileHeader` value filled in by `add_file_from_buffers`
(cnpz.cpp lines 179-230): DOS date/time from the effective timestamp, CRC
left at 0 (`use_crc` is false), sizes narrowed to `uint32_t`. -/
def mkLocalHeader (name buf0 : List Nat) (buf1 : Option (List Nat))
    (timestamp now : Nat) (compression : CompressionMethod) :
    ZipLocalFileHeader :=
  let tm := gmtimeModel (effectiveTimestamp timestamp now)
  { compression_method := compression.code
    last_mod_file_time := dosTime tm
    last_mod_file_date := dosDate tm
    crc32 := 0
    compressed_size := match compression with
      | .DEFLATE => (deflatePayload buf0 buf1).1.total_out % 4294967296
      | .STORED => totalSize buf0 buf1
    uncompressed_size := totalSize buf0 buf1
    filename_length := name.length }

/-- The bytes one entry appends to the output sink (cnpz.cpp lines
232-242): signature, local header, name, payload. -/
def entryBytes (name buf0 : List Nat) (buf1 : Option (List Nat))
    (timestamp now : Nat) (compression : CompressionMethod) : List Nat :=
  le32 ZIP_LOCAL_FILE_HEADER_SIG ++
  serializeLocalHeader (mkLocalHeader name buf0 buf1 timestamp now compression) ++
  name ++ entryPayload buf0 buf1 compression

/-- The bytes one entry appends to the central-directory accumulator
(cnpz.cpp lines 244-252): signature, version-made-by, a copy of the local
header, the suffix carrying the recorded local-header offset, the name. -/
def cdEntryBytes (local_header_offset : Nat) (name buf0 : List Nat)
    (buf1 : Option (List Nat)) (timestamp now : Nat)
    (compression : CompressionMethod) : List Nat :=
  le32 ZIP_CENTRAL_DIRECTORY_FILE_HEADER_SIG ++ le16 VERSION_MADE_BY ++
  serializeLocalHeader (mkLocalHeader name buf0 buf1 timestamp now compression) ++
  serializeCdSuffix { relative_offset_of_local_header := local_header_offset } ++
  name

/-- `NpzFile::add_file_from_buffers` (cnpz.cpp lines 167-255).
`buf1 = none` models a null second buffer.  Writes on a closed sink are
dropped (failed `ofstream` writes) and `tellp` on a closed sink yields -1,
i.e. 4294967295 after the `uint32_t` narrowing.  On the too-long-name throw
the entry counter has already been incremented (line 173 precedes the check
on line 174) and nothing has been written.  The function returns
`local_header.compressed_size`. -/
def add_file_from_buffers (st : NpzState) (name : List Nat)
    (buf0 : List Nat) (buf1 : Option (List Nat))
    (timestamp now : Nat) (compression : CompressionMethod) :
    NpzState × Except String Nat :=
  let st := { st with numEntries := (st.numEntries + 1) % 65536 }
  if 65535 < name.length then
    (st, .error "Filename too long")
  else
    let local_header_offset :=
      if st.sinkOpen then st.sink.length % 4294967296 else 4294967295
    let st := { st with
      sink := if st.sinkOpen then
          st.sink ++ entryBytes name buf0 buf1 timestamp now compression
        else st.sink }
    let st := { st with
      centralDir := st.centralDir ++
        cdEntryBytes local_header_offset name buf0 buf1 timestamp now compression }
    (st, .ok (mkLocalHeader name buf0 buf1 timestamp now compression).compressed_size)

/-- `NpzFile::close` (cnpz.cpp lines 134-148).  When the sink is already
closed every `fs_` write fails silently and nothing reaches the disk, so the
net effect is no state change; that is what the open-flag guard models. -/
def NpzState.close (st : NpzState) : NpzState :=
  if st.sinkOpen then
    let central_dir := st.centralDir
    let central_dir_offset := st.sink.length % 4294967296
    let eocd : ZipEndOfCentralDirectoryRecord :=
      { num_entries_on_disk := st.numEntries
        num_entries_total := st.numEntries
        central_directory_size := central_dir.length % 4294967296
        central_directory_offset := central_dir_offset }
    { st with sink := st.sink ++ central_dir ++ serializeEocd eocd,
              sinkOpen := false }
  else st

/-- The fixed 10-byte NPY preamble (`NpyHeader`, cnpz.cpp lines 89-94):
magic `\x93NUMPY`, major 1, minor 0, then the little-endian
`uint16_t header_len`. -/
def npyPreamble (header_len : Nat) : List Nat :=
  [0x93, 78, 85, 77, 80, 89, 1, 0] ++ le16 header_len

/-- The shape text inside the header dictionary (cnpz.cpp lines 278-283):
the first dimension, then `,<d>` for each further dimension, then one
trailing comma when there is exactly one dimension.  Byte 44 is `,`. -/
def shapeBody (shape : List Nat) : List Nat :=
  match shape with
  | [] => []
  | d :: rest =>
      natDigits d ++ (rest.map (fun x => 44 :: natDigits x)).flatten ++
      (if rest.isEmpty then [44] else [])

/-- Dimension values joined by commas with no trailing comma — the
spec's wording for the multi-dimensional rendering, stated independently
for comparison with `shapeBody`. -/
def commaJoined : List Nat → List Nat
  | [] => []
  | [d] => natDigits d
  | d :: rest => natDigits d ++ 44 :: commaJoined rest

/-- Preamble plus textual dictionary plus space padding plus the final
newline, before the header-length fix-up (cnpz.cpp lines 270-288).
The initial `header_len` field is `NPY_ARRAY_ALIGN - sizeof(NpyHeader)`
= 54.  Byte 32 is the space used for padding, byte 10 the newline. -/
def npyHeaderBody (type_descr : String) (shape : List Nat) : List Nat :=
  let header := npyPreamble 54 ++
    strBytes "\x7b\x27descr\x27: \x27" ++ strBytes type_descr ++
    strBytes "\x27, \x27fortran_order\x27: False, \x27shape\x27: (" ++
    shapeBody shape ++ strBytes ")\x7d"
  let pad_count := 64 - (header.length + 1) % 64
  header ++ List.replicate pad_count 32 ++ [10]

/-- The header-length fix-up (cnpz.cpp lines 290-293): rewrite the two
`header_len` bytes at offset 8 with the final length minus the preamble. -/
def patchHeaderLen (h : List Nat) : List Nat :=
  h.take 8 ++ le16 (h.length - 10) ++ h.drop 10

/-- `NpzFile::create_npy_header` (cnpz.cpp lines 266-296).  The
`assert(shape.size() > 0)` entry assertion and the
`assert(header.size() <= 0xffff)` NPY-1.0 capacity assertion are modelled
as `none` (the program aborts there); the final
`assert(header.size() % NPY_ARRAY_ALIGN == 0)` is proved below instead. -/
def create_npy_header (type_descr : String) (shape : List Nat) :
    Option (List Nat) :=
  if shape.length = 0 then none
  else
    let header := npyHeaderBody type_descr shape
    if 65535 < header.length then none
    else some (if 64 < header.length then patchHeaderLen header else header)

/-- The thirteen element-type descriptors produced by the `numpy_descr`
specializations (cnpz.cpp lines 97-109). -/
def supportedDescrs : List String :=
  ["|i1", "<i2", "<i4", "<i8", "|u1", "<u2", "<u4", "<u8",
   "<f4", "<f8", "|S1", "<c8", "<c16"]

/-- Value of the little-endian 16-bit field at the head of a byte list. -/
def readU16 (l : List Nat) : Nat := l.getD 0 0 + 256 * l.getD 1 0

/-- Value of the little-endian 32-bit field at the head of a byte list. -/
def readU32 (l : List Nat) : Nat :=
  l.getD 0 0 + 256 * l.getD 1 0 + 65536 * l.getD 2 0 + 16777216 * l.getD 3 0

/-- Byte size of the central-directory record at the head of the buffer,
when one is fully formed there: signature, the 46 fixed bytes, and the name
whose length is the little-endian field at offset 28 (extra-field and
comment lengths are zero throughout this writer). -/
def cdRecordSize (bs : List Nat) : Option Nat :=
  if bs.take 4 = le32 ZIP_CENTRAL_DIRECTORY_FILE_HEADER_SIG ∧ 46 ≤ bs.length
  then
    let n := bs.getD 28 0 + 256 * bs.getD 29 0
    if 46 + n ≤ bs.length then some (46 + n) else none
  else none

/-- Number of fully-formed central-directory records filling the buffer
exactly, `none` when the buffer is not such a sequence. -/
def cdCountAux : Nat → List Nat → Option Nat
  | _, [] => some 0
  | 0, _ :: _ => none
  | fuel + 1, b :: bs =>
      match cdRecordSize (b :: bs) with
      | some k => (cdCountAux fuel ((b :: bs).drop k)).map (fun c => c + 1)
      | none => none

/-- Number of fully-formed central-directory records in the accumulator. -/
def cdRecordCount (bs : List Nat) : Option Nat := cdCountAux bs.length bs

/-! ## Helper lemmas -/

/-- Dropping past a prefix of known length. -/
theorem drop_append_at (l₁ l₂ : List Nat) (k n : Nat) (h : l₁.length = k) :
    (l₁ ++ l₂).drop (k + n) = l₂.drop n := by
  subst h
  exact List.drop_append n

/-- `readU32` recovers the value of a little-endian 32-bit field. -/
theorem readU32_le32 (v : Nat) (rest : List Nat) :
    readU32 (le32 v ++ rest) = v % 4294967296 := by
  simp only [readU32, le32, List.cons_append, List.nil_append, List.getD_cons_zero,
    List.getD_cons_succ]
  omega

/-- `readU16` recovers the value of a little-endian 16-bit field. -/
theorem readU16_le16 (v : Nat) (rest : List Nat) :
    readU16 (le16 v ++ rest) = v % 65536 := by
  simp only [readU16, le16, List.cons_append, List.nil_append, List.getD_cons_zero,
    List.getD_cons_succ]
  omega

/-- Dropping strictly less than the length preserves the last element. -/
theorem getLast?_drop (l : List Nat) (n : Nat) (h : n < l.length) :
    (l.drop n).getLast? = l.getLast? := by
  induction l generalizing n with
  | nil => simp at h
  | cons a t ih =>
      cases n with
      | zero => rfl
      | succ m =>
          simp only [List.length_cons] at h
          have hm : m < t.length := by omega
          have ht : t ≠ [] := by
            cases t with
            | nil => simp at hm
            | cons _ _ => simp
          simp only [List.drop_succ_cons, ih m hm, List.getLast?_cons, ht]
          simp [List.getLast?_eq_getLast _ ht]

/-! ## Claims -/

set_option maxHeartbeats 2000000 in
/-- C1: starting from a freshly opened archive, adding the single entry
"bubble.txt" with the 15-byte stored payload "Words are loud\n" and closing
produces exactly 133 output bytes, with the payload bytes beginning at byte
offset 40.  Holds for every wall-clock value `now` substituted for the
unspecified timestamp. -/
theorem C1_scenario (now : Nat) :
    (strBytes "Words are loud\n").length = 15 ∧
    ((add_file_from_buffers npzInit (strBytes "bubble.txt")
      (strBytes "Words are loud\n") none 0 now .STORED).1.close).sink.length
      = 133 ∧
    (((add_file_from_buffers npzInit (strBytes "bubble.txt")
      (strBytes "Words are loud\n") none 0 now
      .STORED).1.close).sink.drop 40).take 15
      = strBytes "Words are loud\n" := by
  exact ⟨rfl, rfl, rfl⟩

/-- C5: `close` is idempotent — a second `close` after a successful one
leaves the archive state (in particular the bytes on disk) unchanged, for
every archive state at the time of the first close; no exception is raised
(the model of `close` is total). -/
theorem C5_close_idempotent (st : NpzState) :
    st.close.close = st.close ∧ st.close.close.sink = st.close.sink := by
  have h : st.close.close = st.close := by
    by_cases ho : st.sinkOpen
    · simp [NpzState.close, ho]
    · simp [NpzState.close, ho]
  exact ⟨h, by rw [h]⟩

/-- C6: a name longer than 65535 bytes makes `add_file_from_buffers` raise
the validation error before any bytes for the entry reach the sink (or the
central-directory accumulator); a name of length at most 65535 raises no
such error. -/
theorem C6_name_validation (st : NpzState) (name buf0 : List Nat)
    (buf1 : Option (List Nat)) (timestamp now : Nat) (comp : CompressionMethod) :
    (65535 < name.length →
      (add_file_from_buffers st name buf0 buf1 timestamp now comp).2
        = .error "Filename too long" ∧
      (add_file_from_buffers st name buf0 buf1 timestamp now comp).1.sink = st.sink ∧
      (add_file_from_buffers st name buf0 buf1 timestamp now comp).1.centralDir
        = st.centralDir) ∧
    (name.length ≤ 65535 →
      ∃ n, (add_file_from_buffers st name buf0 buf1 timestamp now comp).2 = .ok n) := by
  constructor
  · intro h
    simp [add_file_from_buffers, h]
  · intro h
    simp only [add_file_from_buffers, if_neg (by omega : ¬ 65535 < name.length)]
    exact ⟨_, rfl⟩

/-- Witness for C6 at a 65536-byte name (error case, sink untouched) and a
1-byte name (success case). -/
theorem C6_witness :
    65535 < (List.replicate 65536 97).length ∧
    (add_file_from_buffers npzInit (List.replicate 65536 97) [] none 0 0 .STORED).2
      = .error "Filename too long" ∧
    (add_file_from_buffers npzInit (List.replicate 65536 97) [] none 0 0
      .STORED).1.sink = npzInit.sink ∧
    (∃ n, (add_file_from_buffers npzInit [97] [] none 0 0 .STORED).2 = .ok n) := by
  have hlen : 65535 < (List.replicate 65536 (97 : Nat)).length := by
    rw [List.length_replicate]
    omega
  have h1 := (C6_name_validation npzInit (List.replicate 65536 97) [] none 0 0
    .STORED).1 hlen
  have h2 := (C6_name_validation npzInit [97] [] none 0 0 .STORED).2 (by simp)
  exact ⟨hlen, h1.1, h1.2.1, h2⟩

/-- C4 (code bug): `num_entries_` is incremented (cnpz.cpp line 173) before
the name-length validation (line 174), so after a failed `addEntry` on a
fresh archive the entry count is 1 while the accumulator holds 0
central-directory records — the claimed invariant fails. -/
theorem C4_failed_add_miscounts :
    (add_file_from_buffers npzInit (List.replicate 65536 97) [] none 0 0
      .STORED).2 = .error "Filename too long" ∧
    (add_file_from_buffers npzInit (List.replicate 65536 97) [] none 0 0
      .STORED).1.numEntries = 1 ∧
    cdRecordCount (add_file_from_buffers npzInit (List.replicate 65536 97) []
      none 0 0 .STORED).1.centralDir = some 0 ∧
    (add_file_from_buffers npzInit (List.replicate 65536 97) [] none 0 0
      .STORED).1.numEntries ≠ 0 := by
  generalize hgen : List.replicate 65536 (97 : Nat) = big
  have hlen : 65535 < big.length := by
    rw [← hgen, List.length_replicate]
    omega
  simp [add_file_from_buffers, if_pos hlen, npzInit, cdRecordCount, cdCountAux]

/-- C10: a timestamp of exactly 0 is read as "unspecified" and replaced by
the current wall-clock value `now`; any nonzero timestamp is kept; hence as
long as the wall clock is not itself at the epoch, the effective timestamp
an entry is stamped with is never the epoch, and adding with timestamp 0 is
indistinguishable from adding with the current time. -/
theorem C10_zero_timestamp (st : NpzState) (name buf0 : List Nat)
    (buf1 : Option (List Nat)) (t now : Nat) (comp : CompressionMethod) :
    effectiveTimestamp 0 now = now ∧
    (t ≠ 0 → effectiveTimestamp t now = t) ∧
    (now ≠ 0 → effectiveTimestamp t now ≠ 0) ∧
    (now ≠ 0 → add_file_from_buffers st name buf0 buf1 0 now comp
      = add_file_from_buffers st name buf0 buf1 now now comp) := by
  refine ⟨by simp [effectiveTimestamp], ?_, ?_, ?_⟩
  · intro h
    simp [effectiveTimestamp, h]
  · intro h
    simp only [effectiveTimestamp]
    split
    · exact h
    · next h0 => exact h0
  · intro h
    have he : effectiveTimestamp 0 now = effectiveTimestamp now now := by
      simp [effectiveTimestamp, h]
    have hmk : mkLocalHeader name buf0 buf1 0 now comp
        = mkLocalHeader name buf0 buf1 now now comp := by
      unfold mkLocalHeader
      rw [he]
    have hent : entryBytes name buf0 buf1 0 now comp
        = entryBytes name buf0 buf1 now now comp := by
      unfold entryBytes
      rw [hmk]
    have hcd : ∀ off, cdEntryBytes off name buf0 buf1 0 now comp
        = cdEntryBytes off name buf0 buf1 now now comp := by
      intro off
      unfold cdEntryBytes
      rw [hmk]
    unfold add_file_from_buffers
    simp only [hent, hmk, hcd]

/-- Witness for C10 at timestamp 3 / wall clock 5 on a concrete archive. -/
theorem C10_witness :
    effectiveTimestamp 0 5 = 5 ∧ effectiveTimestamp 3 5 = 3 ∧
    effectiveTimestamp 3 5 ≠ 0 ∧
    add_file_from_buffers npzInit [97] [] none 0 5 .STORED
      = add_file_from_buffers npzInit [97] [] none 5 5 .STORED := by
  have h := C10_zero_timestamp npzInit [97] [] none 3 5 .STORED
  exact ⟨h.1, h.2.1 (by decide), h.2.2.1 (by decide), h.2.2.2 (by decide)⟩

/-- C9: in the deflate path every fragment except the last is fed to the
encoder without requesting termination (and gets `Z_OK` or `Z_BUF_ERROR`,
as the source asserts), the last fragment is fed with termination requested,
termination reaches the end-of-stream state (`Z_STREAM_END`, as asserted),
and at termination the encoder's cumulative consumed-byte counter equals
the total byte length of all input fragments (as asserted on line 227). -/
theorem C9_deflate_protocol (buf0 : List Nat) (buf1 : Option (List Nat)) :
    (deflatePayload buf0 buf1).2.map Prod.snd
      = (match buf1 with | none => [true] | some _ => [false, true]) ∧
    (∀ p ∈ (deflatePayload buf0 buf1).2.dropLast,
      p.2 = false ∧ (p.1 = Z_OK ∨ p.1 = Z_BUF_ERROR)) ∧
    (deflatePayload buf0 buf1).2.getLast?.map Prod.fst = some Z_STREAM_END ∧
    (deflatePayload buf0 buf1).1.ended = true ∧
    (deflatePayload buf0 buf1).1.total_in = buf0.length +
      (match buf1 with | none => 0 | some b => b.length) := by
  cases buf1 <;>
    simp [deflatePayload, compress_chunk, deflateStep, zInit]

/-! ## Byte-layout helper lemmas -/

/-- `le16` always yields 2 bytes. -/
theorem le16_length (v : Nat) : (le16 v).length = 2 := rfl

/-- `le32` always yields 4 bytes. -/
theorem le32_length (v : Nat) : (le32 v).length = 4 := rfl

/-- A packed local header is 26 bytes. -/
theorem serializeLocalHeader_length (h : ZipLocalFileHeader) :
    (serializeLocalHeader h).length = 26 := rfl

/-- A packed central-directory suffix is 14 bytes. -/
theorem serializeCdSuffix_length (s : ZipCentralDirectoryFileHeaderSuffix) :
    (serializeCdSuffix s).length = 14 := rfl

/-- A packed end-of-directory record is 22 bytes. -/
theorem serializeEocd_length (e : ZipEndOfCentralDirectoryRecord) :
    (serializeEocd e).length = 22 := rfl

/-- Offset 12 of the end-of-directory record is the size field. -/
theorem serializeEocd_drop12 (e : ZipEndOfCentralDirectoryRecord) :
    (serializeEocd e).drop 12
      = le32 e.central_directory_size ++
        (le32 e.central_directory_offset ++ le16 e.comment_size) := rfl

/-- Offset 16 of the end-of-directory record is the offset field. -/
theorem serializeEocd_drop16 (e : ZipEndOfCentralDirectoryRecord) :
    (serializeEocd e).drop 16
      = le32 e.central_directory_offset ++ le16 e.comment_size := rfl

/-- After `close` on an open archive, the 4 bytes at offset 12 of the
end-of-directory record hold the accumulator length reduced modulo 2^32. -/
theorem close_eocd_size_field (st : NpzState) (hopen : st.sinkOpen = true) :
    readU32 (st.close.sink.drop (st.sink.length + st.centralDir.length + 12))
      = st.centralDir.length % 4294967296 := by
  simp only [NpzState.close, if_pos hopen]
  rw [drop_append_at (st.sink ++ st.centralDir) _
        (st.sink.length + st.centralDir.length) 12 (by simp),
    serializeEocd_drop12, readU32_le32]
  dsimp only
  omega

/-- After `close` on an open archive, the 4 bytes at offset 16 of the
end-of-directory record hold the pre-central-directory sink position
reduced modulo 2^32. -/
theorem close_eocd_offset_field (st : NpzState) (hopen : st.sinkOpen = true) :
    readU32 (st.close.sink.drop (st.sink.length + st.centralDir.length + 16))
      = st.sink.length % 4294967296 := by
  simp only [NpzState.close, if_pos hopen]
  rw [drop_append_at (st.sink ++ st.centralDir) _
        (st.sink.length + st.centralDir.length) 16 (by simp),
    serializeEocd_drop16, readU32_le32]
  dsimp only
  omega

/-- Offset 42 of a central-directory record is the local-header offset
field, followed by the entry name. -/
theorem cdEntryBytes_drop42 (off : Nat) (name buf0 : List Nat)
    (buf1 : Option (List Nat)) (ts now : Nat) (comp : CompressionMethod) :
    (cdEntryBytes off name buf0 buf1 ts now comp).drop 42
      = le32 off ++ name := rfl

/-- The bytes of an entry start with the local-header signature. -/
theorem entryBytes_take4 (name buf0 : List Nat) (buf1 : Option (List Nat))
    (ts now : Nat) (comp : CompressionMethod) :
    (entryBytes name buf0 buf1 ts now comp).take 4
      = le32 ZIP_LOCAL_FILE_HEADER_SIG := rfl

/-- `add_file_from_buffers` never changes the open flag. -/
theorem add_preserves_sinkOpen (st : NpzState) (name buf0 : List Nat)
    (buf1 : Option (List Nat)) (ts now : Nat) (comp : CompressionMethod) :
    (add_file_from_buffers st name buf0 buf1 ts now comp).1.sinkOpen
      = st.sinkOpen := by
  unfold add_file_from_buffers
  split <;> rfl

/-- A successful add on an open archive appends exactly `entryBytes` to the
sink. -/
theorem add_sink_of_open (st : NpzState) (name buf0 : List Nat)
    (buf1 : Option (List Nat)) (ts now : Nat) (comp : CompressionMethod)
    (hopen : st.sinkOpen = true) (hname : name.length ≤ 65535) :
    (add_file_from_buffers st name buf0 buf1 ts now comp).1.sink
      = st.sink ++ entryBytes name buf0 buf1 ts now comp := by
  simp only [add_file_from_buffers, if_neg (by omega : ¬ 65535 < name.length)]
  rw [if_pos hopen]

/-- A successful add on an open archive appends exactly `cdEntryBytes`,
carrying the pre-add sink position narrowed to `uint32_t`, to the
accumulator. -/
theorem add_centralDir_of_open (st : NpzState) (name buf0 : List Nat)
    (buf1 : Option (List Nat)) (ts now : Nat) (comp : CompressionMethod)
    (hopen : st.sinkOpen = true) (hname : name.length ≤ 65535) :
    (add_file_from_buffers st name buf0 buf1 ts now comp).1.centralDir
      = st.centralDir ++ cdEntryBytes (st.sink.length % 4294967296) name buf0
          buf1 ts now comp := by
  simp only [add_file_from_buffers, if_neg (by omega : ¬ 65535 < name.length)]
  rw [if_pos hopen]

/-- A successful add returns the local header's compressed-size field. -/
theorem add_ret (st : NpzState) (name buf0 : List Nat)
    (buf1 : Option (List Nat)) (ts now : Nat) (comp : CompressionMethod)
    (hname : name.length ≤ 65535) :
    (add_file_from_buffers st name buf0 buf1 ts now comp).2
      = .ok (mkLocalHeader name buf0 buf1 ts now comp).compressed_size := by
  simp only [add_file_from_buffers, if_neg (by omega : ¬ 65535 < name.length)]

/-- An entry contributes 30 fixed bytes plus name plus payload. -/
theorem entryBytes_length (name buf0 : List Nat) (buf1 : Option (List Nat))
    (ts now : Nat) (comp : CompressionMethod) :
    (entryBytes name buf0 buf1 ts now comp).length
      = 30 + name.length + (entryPayload buf0 buf1 comp).length := by
  simp [entryBytes, List.length_append, le32_length,
    serializeLocalHeader_length]
  omega

/-- A central-directory record is 46 fixed bytes plus the name. -/
theorem cdEntryBytes_length (off : Nat) (name buf0 : List Nat)
    (buf1 : Option (List Nat)) (ts now : Nat) (comp : CompressionMethod) :
    (cdEntryBytes off name buf0 buf1 ts now comp).length
      = 46 + name.length := by
  simp [cdEntryBytes, List.length_append, le32_length, le16_length,
    serializeLocalHeader_length, serializeCdSuffix_length]
  omega

/-- A successful `add_file_from_buffers` on an open archive appends one
central-directory record whose local-header-offset field holds the sink
position before the add, reduced modulo 2^32. -/
theorem add_cd_offset_field (st : NpzState) (name buf0 : List Nat)
    (buf1 : Option (List Nat)) (ts now : Nat) (comp : CompressionMethod)
    (hopen : st.sinkOpen = true) (hname : name.length ≤ 65535) :
    readU32 ((add_file_from_buffers st name buf0 buf1 ts now comp).1.centralDir.drop
      (st.centralDir.length + 42)) = st.sink.length % 4294967296 := by
  rw [add_centralDir_of_open st name buf0 buf1 ts now comp hopen hname,
    drop_append_at st.centralDir _ st.centralDir.length 42 rfl,
    cdEntryBytes_drop42, readU32_le32]
  omega

/-- A successful `add_file_from_buffers` on an open archive writes the
local-header signature exactly at the pre-add sink position. -/
theorem add_local_sig_at_offset (st : NpzState) (name buf0 : List Nat)
    (buf1 : Option (List Nat)) (ts now : Nat) (comp : CompressionMethod)
    (hopen : st.sinkOpen = true) (hname : name.length ≤ 65535) :
    ((add_file_from_buffers st name buf0 buf1 ts now comp).1.sink.drop
      st.sink.length).take 4 = le32 ZIP_LOCAL_FILE_HEADER_SIG := by
  rw [add_sink_of_open st name buf0 buf1 ts now comp hopen hname,
    List.drop_left, entryBytes_take4]

/-- A first entry of 2^32 payload bytes: the add succeeds (returned size
wraps to 0), the sink holds 2^32 + 31 bytes, the accumulator one 47-byte
record. -/
theorem bigEntrySink (big : List Nat) (hbig : big.length = 4294967296) :
    (add_file_from_buffers npzInit [97] big none 1 0 .STORED).2 = .ok 0 ∧
    (add_file_from_buffers npzInit [97] big none 1 0 .STORED).1.sinkOpen = true ∧
    (add_file_from_buffers npzInit [97] big none 1 0 .STORED).1.sink.length
      = 4294967327 ∧
    (add_file_from_buffers npzInit [97] big none 1 0 .STORED).1.centralDir.length
      = 47 := by
  have hname : ([97] : List Nat).length ≤ 65535 := by decide
  refine ⟨?_, ?_, ?_, ?_⟩
  · rw [add_ret npzInit [97] big none 1 0 .STORED hname]
    simp [mkLocalHeader, totalSize, hbig]
  · rw [add_preserves_sinkOpen]
    rfl
  · rw [add_sink_of_open npzInit [97] big none 1 0 .STORED rfl hname]
    simp [npzInit, entryBytes_length, entryPayload, hbig]
  · rw [add_centralDir_of_open npzInit [97] big none 1 0 .STORED rfl hname]
    simp [npzInit, cdEntryBytes_length]

/-- Closing after the 2^32-byte entry stores 31 in the end-of-directory
offset field, not the true position 4294967327. -/
theorem c2BigField (big : List Nat) (hbig : big.length = 4294967296) :
    readU32 (((add_file_from_buffers npzInit [97] big none 1 0
      .STORED).1.close).sink.drop (4294967327 + 47 + 16)) = 31 := by
  have h := bigEntrySink big hbig
  have hfield := close_eocd_offset_field _ h.2.1
  rw [h.2.2.1, h.2.2.2] at hfield
  rw [show (4294967327 % 4294967296 : Nat) = 31 from by norm_num] at hfield
  exact hfield

/-- C2 (amended): after `close` on an open archive, the end-of-directory
record's size field holds the accumulator's byte length reduced modulo 2^32
and its offset field holds the sink position immediately before the
accumulator was written, reduced modulo 2^32 (both fields are `uint32_t`);
the equalities are exact whenever those quantities are below 2^32. -/
theorem C2_eocd_fields_mod32 (st : NpzState) (hopen : st.sinkOpen = true) :
    readU32 (st.close.sink.drop (st.sink.length + st.centralDir.length + 12))
      = st.centralDir.length % 4294967296 ∧
    readU32 (st.close.sink.drop (st.sink.length + st.centralDir.length + 16))
      = st.sink.length % 4294967296 :=
  ⟨close_eocd_size_field st hopen, close_eocd_offset_field st hopen⟩

/-- Witness for C2 on the empty archive: both fields read back 0. -/
theorem C2_witness :
    readU32 ((NpzState.close npzInit).sink.drop 12) = 0 ∧
    readU32 ((NpzState.close npzInit).sink.drop 16) = 0 :=
  ⟨(C2_eocd_fields_mod32 npzInit rfl).1, (C2_eocd_fields_mod32 npzInit rfl).2⟩

/-- C2 counterexample: one successfully added entry with a 2^32-byte stored
payload puts the sink position before the central directory at 4294967327,
but the offset field of the end-of-directory record reads back 31 — the
exact-equality claim fails (the `uint32_t` field wrapped). -/
theorem C2_counterexample :
    (add_file_from_buffers npzInit [97] (List.replicate 4294967296 0) none 1 0
      .STORED).2 = .ok 0 ∧
    (add_file_from_buffers npzInit [97] (List.replicate 4294967296 0) none 1 0
      .STORED).1.sink.length = 4294967327 ∧
    readU32 (((add_file_from_buffers npzInit [97] (List.replicate 4294967296 0)
      none 1 0 .STORED).1.close).sink.drop (4294967327 + 47 + 16)) = 31 ∧
    (31 : Nat) ≠ 4294967327 := by
  have h := bigEntrySink (List.replicate 4294967296 0)
    (by rw [List.length_replicate])
  exact ⟨h.1, h.2.2.1,
    c2BigField (List.replicate 4294967296 0) (by rw [List.length_replicate]),
    by norm_num⟩

/-- C3 (amended): for every entry successfully added to an open archive,
the relative-offset-of-local-header field of the appended central-directory
record holds the sink position at which the entry's local-header signature
was written, reduced modulo 2^32 (the field is `uint32_t`); exact whenever
that position is below 2^32.  The second conjunct pins that position: the
local-header signature is indeed written there. -/
theorem C3_cd_offset_mod32 (st : NpzState) (name buf0 : List Nat)
    (buf1 : Option (List Nat)) (ts now : Nat) (comp : CompressionMethod)
    (hopen : st.sinkOpen = true) (hname : name.length ≤ 65535) :
    readU32 ((add_file_from_buffers st name buf0 buf1 ts now
        comp).1.centralDir.drop (st.centralDir.length + 42))
      = st.sink.length % 4294967296 ∧
    ((add_file_from_buffers st name buf0 buf1 ts now comp).1.sink.drop
      st.sink.length).take 4 = le32 ZIP_LOCAL_FILE_HEADER_SIG :=
  ⟨add_cd_offset_field st name buf0 buf1 ts now comp hopen hname,
   add_local_sig_at_offset st name buf0 buf1 ts now comp hopen hname⟩

/-- Witness for C3: first entry of a fresh archive records offset 0. -/
theorem C3_witness :
    readU32 ((add_file_from_buffers npzInit [97] [] none 1 0
      .STORED).1.centralDir.drop 42) = 0 ∧
    ((add_file_from_buffers npzInit [97] [] none 1 0 .STORED).1.sink.drop
      0).take 4 = le32 ZIP_LOCAL_FILE_HEADER_SIG :=
  ⟨(C3_cd_offset_mod32 npzInit [97] [] none 1 0 .STORED rfl (by decide)).1,
   (C3_cd_offset_mod32 npzInit [97] [] none 1 0 .STORED rfl (by decide)).2⟩

/-- Second add after the 2^32-byte entry: its central-directory record
stores 31 in the offset field although its local header was written at sink
position 4294967327. -/
theorem c3SecondAdd (big : List Nat) (hbig : big.length = 4294967296) :
    readU32 ((add_file_from_buffers
        (add_file_from_buffers npzInit [97] big none 1 0 .STORED).1
        [98] [] none 1 0 .STORED).1.centralDir.drop (47 + 42)) = 31 ∧
    ((add_file_from_buffers
        (add_file_from_buffers npzInit [97] big none 1 0 .STORED).1
        [98] [] none 1 0 .STORED).1.sink.drop 4294967327).take 4
      = le32 ZIP_LOCAL_FILE_HEADER_SIG := by
  have h := bigEntrySink big hbig
  have h1 := add_cd_offset_field
    (add_file_from_buffers npzInit [97] big none 1 0 .STORED).1
    [98] [] none 1 0 .STORED h.2.1 (by decide)
  rw [h.2.2.1, h.2.2.2] at h1
  rw [show (4294967327 % 4294967296 : Nat) = 31 from by norm_num] at h1
  have h2 := add_local_sig_at_offset
    (add_file_from_buffers npzInit [97] big none 1 0 .STORED).1
    [98] [] none 1 0 .STORED h.2.1 (by decide)
  rw [h.2.2.1] at h2
  exact ⟨h1, h2⟩

/-- C3 counterexample: after a first successfully added entry with a
2^32-byte stored payload, the second entry's local-header signature is
written at sink position 4294967327 but its central-directory record
records 31 — the exact-equality claim fails. -/
theorem C3_counterexample :
    (add_file_from_buffers npzInit [97] (List.replicate 4294967296 0) none 1 0
      .STORED).1.sink.length = 4294967327 ∧
    readU32 ((add_file_from_buffers
        (add_file_from_buffers npzInit [97] (List.replicate 4294967296 0) none
          1 0 .STORED).1 [98] [] none 1 0 .STORED).1.centralDir.drop
        (47 + 42)) = 31 ∧
    ((add_file_from_buffers
        (add_file_from_buffers npzInit [97] (List.replicate 4294967296 0) none
          1 0 .STORED).1 [98] [] none 1 0 .STORED).1.sink.drop
        4294967327).take 4 = le32 ZIP_LOCAL_FILE_HEADER_SIG ∧
    (31 : Nat) ≠ 4294967327 := by
  have h := bigEntrySink (List.replicate 4294967296 0)
    (by rw [List.length_replicate])
  have h2 := c3SecondAdd (List.replicate 4294967296 0)
    (by rw [List.length_replicate])
  exact ⟨h.2.2.1, h2.1, h2.2, by norm_num⟩

/-- The MS-DOS time field sits at offset 6 of the serialized local header. -/
theorem serializeLocalHeader_time_field (h : ZipLocalFileHeader) (rest : List Nat) :
    ((serializeLocalHeader h ++ rest).drop 6).take 2
      = le16 h.last_mod_file_time := rfl

/-- The MS-DOS date field sits at offset 8 of the serialized local header. -/
theorem serializeLocalHeader_date_field (h : ZipLocalFileHeader) (rest : List Nat) :
    ((serializeLocalHeader h ++ rest).drop 8).take 2
      = le16 h.last_mod_file_date := rfl

/-- The MS-DOS time field of an entry sits at offset 10 of its bytes. -/
theorem entryBytes_time_field (name buf0 : List Nat) (buf1 : Option (List Nat))
    (ts now : Nat) (comp : CompressionMethod) :
    ((entryBytes name buf0 buf1 ts now comp).drop 10).take 2
      = le16 (dosTime (gmtimeModel (effectiveTimestamp ts now))) := by
  unfold entryBytes
  rw [List.append_assoc, List.append_assoc,
    show (10 : Nat) = 4 + 6 from rfl,
    drop_append_at (le32 ZIP_LOCAL_FILE_HEADER_SIG) _ 4 6 rfl,
    serializeLocalHeader_time_field]
  rfl

/-- The MS-DOS date field of an entry sits at offset 12 of its bytes. -/
theorem entryBytes_date_field (name buf0 : List Nat) (buf1 : Option (List Nat))
    (ts now : Nat) (comp : CompressionMethod) :
    ((entryBytes name buf0 buf1 ts now comp).drop 12).take 2
      = le16 (dosDate (gmtimeModel (effectiveTimestamp ts now))) := by
  unfold entryBytes
  rw [List.append_assoc, List.append_assoc,
    show (12 : Nat) = 4 + 8 from rfl,
    drop_append_at (le32 ZIP_LOCAL_FILE_HEADER_SIG) _ 4 8 rfl,
    serializeLocalHeader_date_field]
  simp only [mkLocalHeader]

/-- The DOS time/date words an entry writes into the local header in the
sink are the ones computed from the effective timestamp. -/
theorem add_dos_fields (st : NpzState) (name buf0 : List Nat)
    (buf1 : Option (List Nat)) (ts now : Nat) (comp : CompressionMethod)
    (hopen : st.sinkOpen = true) (hname : name.length ≤ 65535) :
    ((add_file_from_buffers st name buf0 buf1 ts now comp).1.sink.drop
      (st.sink.length + 10)).take 2
      = le16 (dosTime (gmtimeModel (effectiveTimestamp ts now))) ∧
    ((add_file_from_buffers st name buf0 buf1 ts now comp).1.sink.drop
      (st.sink.length + 12)).take 2
      = le16 (dosDate (gmtimeModel (effectiveTimestamp ts now))) := by
  rw [add_sink_of_open st name buf0 buf1 ts now comp hopen hname]
  constructor
  · rw [drop_append_at st.sink _ st.sink.length 10 rfl]
    exact entryBytes_time_field name buf0 buf1 ts now comp
  · rw [drop_append_at st.sink _ st.sink.length 12 rfl]
    exact entryBytes_date_field name buf0 buf1 ts now comp

/-- C7 (amended): for every entry added with a nonzero timestamp, the DOS
time word written into the local header equals hour·2048 + minute·32 +
second/2 of the UTC decomposition exactly, and the DOS date word equals
(year−1980)·512 + month·32 + day reduced modulo 2^16 (the field is a
16-bit word computed in C++20 two's-complement `int` arithmetic and then
narrowed); the date equality is exact for years 1980 through 2107, where
the formula fits the field. -/
theorem C7_dos_fields (st : NpzState) (name buf0 : List Nat)
    (buf1 : Option (List Nat)) (t now : Nat) (comp : CompressionMethod)
    (hopen : st.sinkOpen = true) (hname : name.length ≤ 65535) (ht : t ≠ 0) :
    ((add_file_from_buffers st name buf0 buf1 t now comp).1.sink.drop
      (st.sink.length + 10)).take 2
      = le16 ((gmtimeModel t).tm_hour * 2048 + (gmtimeModel t).tm_min * 32 +
          (gmtimeModel t).tm_sec / 2) ∧
    ((add_file_from_buffers st name buf0 buf1 t now comp).1.sink.drop
      (st.sink.length + 12)).take 2
      = le16 (Int.toNat (((((gmtimeModel t).tm_year : Int) + 1900 - 1980) * 512 +
          (((gmtimeModel t).tm_mon : Int) + 1) * 32 +
          ((gmtimeModel t).tm_mday : Int)) % 65536)) ∧
    (80 ≤ (gmtimeModel t).tm_year → (gmtimeModel t).tm_year ≤ 207 →
      (gmtimeModel t).tm_mon ≤ 11 → (gmtimeModel t).tm_mday ≤ 31 →
      dosDate (gmtimeModel t)
        = ((gmtimeModel t).tm_year + 1900 - 1980) * 512 +
          ((gmtimeModel t).tm_mon + 1) * 32 + (gmtimeModel t).tm_mday) := by
  have he : effectiveTimestamp t now = t := by simp [effectiveTimestamp, ht]
  have hd := add_dos_fields st name buf0 buf1 t now comp hopen hname
  rw [he] at hd
  refine ⟨?_, ?_, ?_⟩
  · rw [hd.1]
    simp only [dosTime]
  · rw [hd.2]
    have hAB : (((gmtimeModel t).tm_year : Int) - 80) * 512 +
          (((gmtimeModel t).tm_mon : Int) + 1) * 32 + ((gmtimeModel t).tm_mday : Int)
        = (((gmtimeModel t).tm_year : Int) + 1900 - 1980) * 512 +
          (((gmtimeModel t).tm_mon : Int) + 1) * 32 + ((gmtimeModel t).tm_mday : Int) := by
      ring_nf
    simp only [dosDate]
    rw [hAB]
  · intro h1 h2 h3 h4
    simp only [dosDate]
    omega

/-- Witness for C7 at timestamp 1234567890 (2009-02-13T23:31:30Z): time
word 48111, date word 14925, both as written and by the plain formula. -/
theorem C7_witness :
    dosTime (gmtimeModel 1234567890) = 48111 ∧
    dosDate (gmtimeModel 1234567890) = 14925 ∧
    ((add_file_from_buffers npzInit [97] [] none 1234567890 0
      .STORED).1.sink.drop 10).take 2 = le16 48111 ∧
    ((add_file_from_buffers npzInit [97] [] none 1234567890 0
      .STORED).1.sink.drop 12).take 2 = le16 14925 ∧
    dosDate (gmtimeModel 1234567890)
      = ((gmtimeModel 1234567890).tm_year + 1900 - 1980) * 512 +
        ((gmtimeModel 1234567890).tm_mon + 1) * 32 +
        (gmtimeModel 1234567890).tm_mday := by
  have h := C7_dos_fields npzInit [97] [] none 1234567890 0 .STORED rfl
    (by decide) (by decide)
  exact ⟨by decide, by decide, h.1, h.2.1,
    h.2.2 (by decide) (by decide) (by decide) (by decide)⟩

/-- C7 counterexample: at timestamp 1 (1970-01-01T00:00:01Z, year before
1980) the date word actually written is 60449, while the claimed formula
(year−1980)·512 + month·32 + day evaluates to −5087; they differ, so the
claim as stated fails for pre-1980 timestamps. -/
theorem C7_counterexample :
    (gmtimeModel 1).tm_year + 1900 = 1970 ∧
    (gmtimeModel 1).tm_mon + 1 = 1 ∧
    (gmtimeModel 1).tm_mday = 1 ∧
    readU16 (((add_file_from_buffers npzInit [97] [] none 1 0
      .STORED).1.sink.drop 12).take 2) = 60449 ∧
    ((1970 - 1980) * 512 + 1 * 32 + 1 : Int) = -5087 ∧
    ((60449 : Int) ≠ -5087) := by
  refine ⟨by decide, by decide, by decide, ?_, by decide, by decide⟩
  decide

/-- The NPY preamble is 10 bytes. -/
theorem npyPreamble_length (v : Nat) : (npyPreamble v).length = 10 := rfl

/-- Padding makes preamble + dictionary + newline a multiple of 64. -/
theorem npyHeaderBody_length_mod (d : String) (s : List Nat) :
    (npyHeaderBody d s).length % 64 = 0 := by
  simp only [npyHeaderBody]
  simp [List.length_append, List.length_replicate]
  omega

/-- The header body ends with the single newline byte. -/
theorem npyHeaderBody_getLast (d : String) (s : List Nat) :
    (npyHeaderBody d s).getLast? = some 10 := by
  simp only [npyHeaderBody]
  exact List.getLast?_concat _

/-- The header body is longer than the 10-byte preamble. -/
theorem npyHeaderBody_length_ge (d : String) (s : List Nat) :
    10 < (npyHeaderBody d s).length := by
  simp [npyHeaderBody, List.length_append, npyPreamble_length,
    List.length_replicate]

/-- Rewriting the length field keeps the byte count. -/
theorem patchHeaderLen_length (h : List Nat) (hh : 10 ≤ h.length) :
    (patchHeaderLen h).length = h.length := by
  simp [patchHeaderLen, List.length_append, le16_length, List.length_take,
    List.length_drop]
  omega

/-- Rewriting the length field keeps the final byte. -/
theorem patchHeaderLen_getLast (h : List Nat) (hh : 10 < h.length) :
    (patchHeaderLen h).getLast? = h.getLast? := by
  have hne : h ≠ [] := by
    intro he
    rw [he] at hh
    simp at hh
  simp only [patchHeaderLen]
  rw [List.getLast?_append, getLast?_drop h 10 hh]
  cases hx : h.getLast? with
  | none =>
      exact absurd (List.getLast?_eq_none_iff.mp hx) hne
  | some x => simp

/-- The loop of cnpz.cpp lines 279-282 produces a leading comma before
every dimension after the first. -/
theorem flatten_comma (x : Nat) (rest : List Nat) :
    ((x :: rest).map (fun y => 44 :: natDigits y)).flatten
      = 44 :: commaJoined (x :: rest) := by
  induction rest generalizing x with
  | nil => simp [commaJoined]
  | cons y ys ih =>
      simp only [List.map_cons, List.flatten_cons] at *
      rw [ih y]
      simp [commaJoined]

/-- A one-dimensional shape renders with a trailing comma. -/
theorem shapeBody_single (d : Nat) : shapeBody [d] = natDigits d ++ [44] := by
  simp [shapeBody]

/-- A multi-dimensional shape renders comma-joined, no trailing comma. -/
theorem shapeBody_multi (d0 d1 : Nat) (rest : List Nat) :
    shapeBody (d0 :: d1 :: rest) = commaJoined (d0 :: d1 :: rest) := by
  simp only [shapeBody, List.isEmpty_cons]
  rw [flatten_comma d1 rest]
  simp [commaJoined]

/-- C8: for every supported type descriptor and non-empty shape for which
the header is built (the NPY-1.0 16-bit capacity assertion not tripped),
the array header's total length is an exact multiple of 64 bytes, its final
byte is a single newline, a one-dimensional shape renders as the digits of
d0 followed by a trailing comma, and a multi-dimensional shape renders as
the dimension values joined by commas with no trailing comma. -/
theorem C8_npy_header (d : String) (_hd : d ∈ supportedDescrs)
    (shape : List Nat) (h : List Nat)
    (hc : create_npy_header d shape = some h) :
    h.length % 64 = 0 ∧
    h.getLast? = some 10 ∧
    (∀ d0, shape = [d0] → shapeBody shape = natDigits d0 ++ [44]) ∧
    (2 ≤ shape.length → shapeBody shape = commaJoined shape) := by
  have hmain : h.length % 64 = 0 ∧ h.getLast? = some 10 := by
    simp only [create_npy_header] at hc
    split at hc
    · exact absurd hc (by simp)
    · split at hc
      · exact absurd hc (by simp)
      · have hh := Option.some.inj hc
        subst hh
        split
        · next hgt =>
            have h10 : 10 < (npyHeaderBody d shape).length :=
              npyHeaderBody_length_ge d shape
            constructor
            · rw [patchHeaderLen_length _ (by omega)]
              exact npyHeaderBody_length_mod d shape
            · rw [patchHeaderLen_getLast _ h10]
              exact npyHeaderBody_getLast d shape
        · exact ⟨npyHeaderBody_length_mod d shape, npyHeaderBody_getLast d shape⟩
  refine ⟨hmain.1, hmain.2, ?_, ?_⟩
  · intro d0 hs
    subst hs
    exact shapeBody_single d0
  · intro hlen
    match shape, hlen with
    | d0 :: d1 :: rest, _ => exact shapeBody_multi d0 d1 rest

set_option maxRecDepth 40000 in
/-- Witness for C8 at descriptor `<f8` with shapes [3, 2] and [7]. -/
theorem C8_witness :
    ("<f8" ∈ supportedDescrs) ∧
    ((create_npy_header "<f8" [3, 2]).getD []).length % 64 = 0 ∧
    ((create_npy_header "<f8" [3, 2]).getD []).getLast? = some 10 ∧
    shapeBody [3, 2] = commaJoined [3, 2] ∧
    shapeBody [7] = natDigits 7 ++ [44] := by
  have hmem : "<f8" ∈ supportedDescrs := by decide
  have h := C8_npy_header "<f8" hmem [3, 2]
    ((create_npy_header "<f8" [3, 2]).getD []) (by decide)
  have h7 := C8_npy_header "<f8" hmem [7]
    ((create_npy_header "<f8" [7]).getD []) (by decide)
  exact ⟨hmem, h.1, h.2.1, h.2.2.2 (by decide), h7.2.2.1 7 rfl⟩
